import Mathlib

/-!
Verification of `opyrator/ui/streamlit_ui.py`.

The module renders an interactive form from a pydantic model schema,
collects widget values into a nested session dictionary, invokes the
wrapped operation on the parsed input, and renders the structured
response.  We embed the Python values, the session state, and the
rendering functions shallowly: Python dictionaries become ordered
association lists, widget interactions become queries answered by an
abstract host, and a run of the UI script returns the new session state
together with the trace of rendering calls it performed.
-/

set_option maxHeartbeats 1600000
set_option maxRecDepth 100000

/-- A Python value as it occurs in the session input/output data:
`None`, booleans, integers, floats (embedded exactly as rationals),
strings, lists, dictionaries (ordered key/value association lists, as
Python dicts preserve insertion order and update in place), and
pydantic model instances (a class name together with its fields). -/
inductive PyVal where
  | none : PyVal
  | bool (b : Bool) : PyVal
  | int (n : ℤ) : PyVal
  | num (q : ℚ) : PyVal
  | str (s : String) : PyVal
  | list (xs : List PyVal) : PyVal
  | dict (entries : List (String × PyVal)) : PyVal
  | model (name : String) (fields : List (String × PyVal)) : PyVal

/-- Python `key in d` / `d[key]` lookup on a dictionary's entry list. -/
def lookupEntry : List (String × PyVal) → String → Option PyVal
  | [], _ => Option.none
  | (k, v) :: rest, key => if k = key then Option.some v else lookupEntry rest key

/-- Python `d[key] = v`: update in place when the key is present
(insertion order preserved), append otherwise. -/
def insertEntry : List (String × PyVal) → String → PyVal → List (String × PyVal)
  | [], key, v => [(key, v)]
  | (k, w) :: rest, key, v =>
      if k = key then (k, v) :: rest else (k, w) :: insertEntry rest key v

/-- Python `str.split` on a single separator character: splits at every
occurrence, keeping empty pieces (`"".split(".") == [""]`). -/
def splitOnChar (sep : Char) : List Char → List Char → List String
  | [], acc => [String.mk acc.reverse]
  | c :: rest, acc =>
      if c = sep then String.mk acc.reverse :: splitOnChar sep rest []
      else splitOnChar sep rest (c :: acc)

/-- `key.split(".")` as performed by `InputUI._store_value` / `_get_value`. -/
def splitKey (key : String) : List String :=
  splitOnChar '.' key.toList []

/-- `InputUI._store_value(key, value)` on the already split key path:
walk the nested dictionaries, creating an empty dictionary for a
missing intermediate segment, and bind the final segment to `value`.
`Option.none` models the `TypeError` Python raises when the walk hits a
non-dictionary value (the callers wrap the call in `try/except`). -/
def store_value : PyVal → List String → PyVal → Option PyVal
  | d, [], _ => Option.some d
  | PyVal.dict es, [k], v => Option.some (PyVal.dict (insertEntry es k v))
  | PyVal.dict es, k :: k2 :: rest, v =>
      match store_value ((lookupEntry es k).getD (PyVal.dict [])) (k2 :: rest) v with
      | Option.some c => Option.some (PyVal.dict (insertEntry es k c))
      | Option.none => Option.none
  | _, _ :: _, _ => Option.none

/-- `InputUI._get_value(key)` on the already split key path.  Returns
the looked-up value (`Option.none` inside the pair models Python's
`None` result for an absent final segment) together with the session
data after the call — the walk inserts an empty dictionary for every
missing intermediate segment, so the data can change.  The outer
`Option.none` models the `TypeError` raised on a non-dictionary
intermediate value. -/
def get_value : PyVal → List String → Option (Option PyVal × PyVal)
  | d, [] => Option.some (Option.none, d)
  | PyVal.dict es, [k] => Option.some (lookupEntry es k, PyVal.dict es)
  | PyVal.dict es, k :: k2 :: rest =>
      match get_value ((lookupEntry es k).getD (PyVal.dict [])) (k2 :: rest) with
      | Option.some (r, c) => Option.some (r, PyVal.dict (insertEntry es k c))
      | Option.none => Option.none
  | _, _ :: _ => Option.none

/-- Every proper prefix of the key path resolves to a dictionary or is
absent (the hypothesis of the round-trip claim); the root itself must
be a dictionary. -/
def properPrefixOk : PyVal → List String → Bool
  | PyVal.dict _, [] => true
  | PyVal.dict _, [_] => true
  | PyVal.dict es, k :: k2 :: rest =>
      match lookupEntry es k with
      | Option.none => true
      | Option.some (PyVal.dict es2) => properPrefixOk (PyVal.dict es2) (k2 :: rest)
      | Option.some _ => false
  | _, _ => false

/-- Pure read of a key path: the value `_get_value` returns, described
without the side effect (absent segments simply yield `Option.none`). -/
def getPure : PyVal → List String → Option PyVal
  | _, [] => Option.none
  | PyVal.dict es, [k] => lookupEntry es k
  | PyVal.dict es, k :: k2 :: rest =>
      match lookupEntry es k with
      | Option.some c => getPure c (k2 :: rest)
      | Option.none => Option.none
  | _, _ :: _ => Option.none

/-- The mutation `_get_value` performs, described directly: an empty
dictionary is inserted for each missing intermediate segment of the
path; the final segment is left untouched. -/
def fillPath : PyVal → List String → PyVal
  | d, [] => d
  | PyVal.dict es, [_] => PyVal.dict es
  | PyVal.dict es, k :: k2 :: rest =>
      PyVal.dict (insertEntry es k (fillPath ((lookupEntry es k).getD (PyVal.dict [])) (k2 :: rest)))
  | d, _ :: _ => d

/-- Every proper prefix of the key path is present and a dictionary. -/
def allPrefixesPresent : PyVal → List String → Bool
  | PyVal.dict _, [] => true
  | PyVal.dict _, [_] => true
  | PyVal.dict es, k :: k2 :: rest =>
      match lookupEntry es k with
      | Option.some (PyVal.dict es2) => allPrefixesPresent (PyVal.dict es2) (k2 :: rest)
      | _ => false
  | _, _ => false

theorem lookupEntry_insertEntry_self (es : List (String × PyVal)) (k : String) (v : PyVal) :
    lookupEntry (insertEntry es k v) k = Option.some v := by
  induction es with
  | nil => simp [insertEntry, lookupEntry]
  | cons hd tl ih =>
      obtain ⟨k0, w⟩ := hd
      by_cases hk : k0 = k
      · simp [insertEntry, lookupEntry, hk]
      · simp [insertEntry, lookupEntry, hk, ih]

theorem insertEntry_of_lookupEntry_eq (es : List (String × PyVal)) (k : String) (v : PyVal)
    (h : lookupEntry es k = Option.some v) : insertEntry es k v = es := by
  induction es with
  | nil => simp [lookupEntry] at h
  | cons hd tl ih =>
      obtain ⟨k0, w⟩ := hd
      by_cases hk : k0 = k
      · subst hk
        simp [lookupEntry] at h
        simp [insertEntry, h]
      · simp [lookupEntry, hk] at h
        simp [insertEntry, hk, ih h]

theorem splitOnChar_ne_nil (sep : Char) : ∀ (cs acc : List Char), splitOnChar sep cs acc ≠ [] := by
  intro cs
  induction cs with
  | nil => intro acc; simp [splitOnChar]
  | cons c rest ih =>
      intro acc
      by_cases hc : c = sep
      · simp [splitOnChar, hc]
      · simpa [splitOnChar, hc] using ih (c :: acc)

theorem splitKey_ne_nil (key : String) : splitKey key ≠ [] :=
  splitOnChar_ne_nil '.' key.toList []

theorem properPrefixOk_empty_dict : ∀ (ks : List String), ks ≠ [] →
    properPrefixOk (PyVal.dict []) ks = true := by
  intro ks h
  match ks with
  | [k] => rfl
  | k :: k2 :: rest => rfl

/-- Auxiliary round-trip statement on the already split key path. -/
theorem store_get_roundtrip : ∀ (ks : List String) (d v : PyVal), ks ≠ [] →
    properPrefixOk d ks = true →
    ∃ d2, store_value d ks v = Option.some d2 ∧
      get_value d2 ks = Option.some (Option.some v, d2) := by
  intro ks
  induction ks with
  | nil => intro d v h; exact absurd rfl h
  | cons k rest ih =>
      intro d v _ hok
      match rest, d with
      | [], PyVal.dict es =>
          refine ⟨PyVal.dict (insertEntry es k v), rfl, ?_⟩
          simp [get_value, lookupEntry_insertEntry_self]
      | k2 :: rest2, PyVal.dict es =>
          have hchild : properPrefixOk ((lookupEntry es k).getD (PyVal.dict [])) (k2 :: rest2) = true := by
            simp only [properPrefixOk] at hok
            match hlk : lookupEntry es k with
            | Option.none => exact properPrefixOk_empty_dict _ (by simp)
            | Option.some (PyVal.dict es2) => rw [hlk] at hok; simpa using hok
            | Option.some (PyVal.none) => rw [hlk] at hok; simp at hok
            | Option.some (PyVal.bool b) => rw [hlk] at hok; simp at hok
            | Option.some (PyVal.int n) => rw [hlk] at hok; simp at hok
            | Option.some (PyVal.num q) => rw [hlk] at hok; simp at hok
            | Option.some (PyVal.str s) => rw [hlk] at hok; simp at hok
            | Option.some (PyVal.list xs) => rw [hlk] at hok; simp at hok
            | Option.some (PyVal.model n fs) => rw [hlk] at hok; simp at hok
          obtain ⟨c, hc1, hc2⟩ := ih ((lookupEntry es k).getD (PyVal.dict [])) v (by simp) hchild
          refine ⟨PyVal.dict (insertEntry es k c), ?_, ?_⟩
          · simp [store_value, hc1]
          · have hre : insertEntry (insertEntry es k c) k c = insertEntry es k c :=
              insertEntry_of_lookupEntry_eq _ k c (lookupEntry_insertEntry_self es k c)
            simp [get_value, lookupEntry_insertEntry_self, hc2, hre]

/-- C2: storing a value under a dot-separated key and reading it back with
`_get_value` returns exactly that value, provided every proper prefix of the
key path resolves to a dictionary or is absent in the session input data. -/
theorem store_value_get_value_roundtrip (key : String) (d v : PyVal)
    (h : properPrefixOk d (splitKey key) = true) :
    ∃ d2, store_value d (splitKey key) v = Option.some d2 ∧
      get_value d2 (splitKey key) = Option.some (Option.some v, d2) :=
  store_get_roundtrip (splitKey key) d v (splitKey_ne_nil key) h

theorem store_value_get_value_roundtrip_witness :
    store_value (PyVal.dict []) (splitKey "a.b") (PyVal.int 7)
      = Option.some (PyVal.dict [("a", PyVal.dict [("b", PyVal.int 7)])]) ∧
    get_value (PyVal.dict [("a", PyVal.dict [("b", PyVal.int 7)])]) (splitKey "a.b")
      = Option.some (Option.some (PyVal.int 7), PyVal.dict [("a", PyVal.dict [("b", PyVal.int 7)])]) := by
  obtain ⟨d2, h1, h2⟩ :=
    store_value_get_value_roundtrip "a.b" (PyVal.dict []) (PyVal.int 7) (by decide)
  have hx : store_value (PyVal.dict []) (splitKey "a.b") (PyVal.int 7)
      = Option.some (PyVal.dict [("a", PyVal.dict [("b", PyVal.int 7)])]) := rfl
  rw [hx] at h1
  have hd : PyVal.dict [("a", PyVal.dict [("b", PyVal.int 7)])] = d2 := by
    injection h1
  rw [← hd] at h2
  exact ⟨hx, h2⟩

theorem getPure_empty_dict : ∀ (ks : List String), ks ≠ [] →
    getPure (PyVal.dict []) ks = Option.none := by
  intro ks h
  match ks with
  | [k] => rfl
  | k :: k2 :: rest => rfl

/-- Auxiliary: `_get_value` computes the pure lookup and fills exactly the
missing intermediate segments of the path with empty dictionaries. -/
theorem get_value_eq_getPure_fillPath : ∀ (ks : List String) (d : PyVal), ks ≠ [] →
    properPrefixOk d ks = true →
    get_value d ks = Option.some (getPure d ks, fillPath d ks) := by
  intro ks
  induction ks with
  | nil => intro d h; exact absurd rfl h
  | cons k rest ih =>
      intro d _ hok
      match rest, d with
      | [], PyVal.dict es => rfl
      | k2 :: rest2, PyVal.dict es =>
          match hlk : lookupEntry es k with
          | Option.none =>
              have hrec := ih (PyVal.dict []) (by simp) (properPrefixOk_empty_dict _ (by simp))
              simp [get_value, getPure, fillPath, hlk, hrec, getPure_empty_dict (k2 :: rest2) (by simp)]
          | Option.some (PyVal.dict es2) =>
              have hok2 : properPrefixOk (PyVal.dict es2) (k2 :: rest2) = true := by
                simp only [properPrefixOk, hlk] at hok; exact hok
              have hrec := ih (PyVal.dict es2) (by simp) hok2
              simp [get_value, getPure, fillPath, hlk, hrec]
          | Option.some (PyVal.none) => simp [properPrefixOk, hlk] at hok
          | Option.some (PyVal.bool b) => simp [properPrefixOk, hlk] at hok
          | Option.some (PyVal.int n) => simp [properPrefixOk, hlk] at hok
          | Option.some (PyVal.num q) => simp [properPrefixOk, hlk] at hok
          | Option.some (PyVal.str s) => simp [properPrefixOk, hlk] at hok
          | Option.some (PyVal.list xs) => simp [properPrefixOk, hlk] at hok
          | Option.some (PyVal.model n fs) => simp [properPrefixOk, hlk] at hok

/-- Auxiliary: when every proper prefix of the path is present and a
dictionary, `_get_value` leaves the data unchanged. -/
theorem fillPath_of_allPresent : ∀ (ks : List String) (d : PyVal),
    allPrefixesPresent d ks = true → fillPath d ks = d := by
  intro ks
  induction ks with
  | nil => intro d _; cases d <;> rfl
  | cons k rest ih =>
      intro d hp
      match rest, d, hp with
      | [], PyVal.dict es, _ => rfl
      | k2 :: rest2, PyVal.dict es, hp =>
          match hlk : lookupEntry es k with
          | Option.some (PyVal.dict es2) =>
              have hp2 : allPrefixesPresent (PyVal.dict es2) (k2 :: rest2) = true := by
                simp only [allPrefixesPresent, hlk] at hp; exact hp
              have hfill := ih (PyVal.dict es2) hp2
              simp [fillPath, hlk, hfill, insertEntry_of_lookupEntry_eq es k _ hlk]
          | Option.none => simp [allPrefixesPresent, hlk] at hp
          | Option.some (PyVal.none) => simp [allPrefixesPresent, hlk] at hp
          | Option.some (PyVal.bool b) => simp [allPrefixesPresent, hlk] at hp
          | Option.some (PyVal.int n) => simp [allPrefixesPresent, hlk] at hp
          | Option.some (PyVal.num q) => simp [allPrefixesPresent, hlk] at hp
          | Option.some (PyVal.str s) => simp [allPrefixesPresent, hlk] at hp
          | Option.some (PyVal.list xs) => simp [allPrefixesPresent, hlk] at hp
          | Option.some (PyVal.model n fs) => simp [allPrefixesPresent, hlk] at hp

/-- C8: `_get_value` is not read-only.  On any admissible path it returns the
pure lookup result (`Option.none`, Python's `None`, when the final segment is
absent at its parent) together with the data in which an empty dictionary has
been inserted for each missing intermediate segment (`fillPath`); when every
proper prefix is present the data is unchanged; and looking up the absent
nested key `"a.b"` in an empty session input dictionary inserts `{"a": {}}`. -/
theorem get_value_not_readonly :
    (∀ (key : String) (d : PyVal), properPrefixOk d (splitKey key) = true →
        get_value d (splitKey key)
            = Option.some (getPure d (splitKey key), fillPath d (splitKey key))
          ∧ (allPrefixesPresent d (splitKey key) = true → fillPath d (splitKey key) = d))
      ∧ get_value (PyVal.dict []) (splitKey "a.b")
          = Option.some (Option.none, PyVal.dict [("a", PyVal.dict [])]) := by
  refine ⟨fun key d h => ⟨?_, fun hp => fillPath_of_allPresent _ d hp⟩, rfl⟩
  exact get_value_eq_getPure_fillPath _ d (splitKey_ne_nil key) h

theorem get_value_not_readonly_witness :
    get_value (PyVal.dict [("x", PyVal.int 3)]) (splitKey "x")
      = Option.some (Option.some (PyVal.int 3), PyVal.dict [("x", PyVal.int 3)]) := by
  have h := (get_value_not_readonly.1 "x" (PyVal.dict [("x", PyVal.int 3)]) (by decide)).1
  exact h

/-- Bit length of a natural number, by fuel (the fuel `4200` covers every
number below `2^4200`, far beyond the finite binary64 range). -/
def bitsF : Nat → Nat → Nat
  | 0, _ => 0
  | fuel+1, n => if n = 0 then 0 else bitsF fuel (n / 2) + 1

/-- Bit length: `bits n = k` iff `2^(k-1) ≤ n < 2^k` (for `n ≥ 1`). -/
def bits (n : Nat) : Nat := bitsF 4200 n

/-- `2^e ≤ a / b`, decided in integer arithmetic. -/
def geScaled (a b : Nat) (e : Int) : Bool :=
  if 0 ≤ e then b * 2^e.toNat ≤ a else b ≤ a * 2^(-e).toNat

/-- An IEEE-754 binary64 value (a Python `float`), represented exactly as
`m * 2^e`.  Values produced by `roundQ` have `|m| ≤ 2^53` and
`e ≥ -1074`, covering every finite double; infinities and NaN do not arise
in the fragment modelled here. -/
structure Dbl where
  m : Int
  e : Int
deriving DecidableEq

/-- The rational `m * 2^e` a double denotes (for stating value-level facts
about the model). -/
def Dbl.toQ (x : Dbl) : ℚ :=
  if 0 ≤ x.e then (x.m : ℚ) * 2^x.e.toNat else (x.m : ℚ) / 2^(-x.e).toNat

/-- IEEE-754 round-to-nearest, ties-to-even, of the rational `n / d`
(`d > 0`) to a binary64 value, in pure integer arithmetic: locate the binade
`t = floor(log2 |n/d|)` from bit lengths, take the ulp exponent
`E = max (t - 52) (-1074)` (the clamp giving correct subnormal rounding),
and round the scaled magnitude `|n/d| / 2^E` half-to-even using integer
division with remainder.  Finite results only — magnitudes at or beyond
`2^1024` (where doubles overflow) do not occur in the schemas considered. -/
def roundQ (n d : Int) : Dbl :=
  if n = 0 then ⟨0, 0⟩
  else
    let s : Int := if n < 0 then -1 else 1
    let a := n.natAbs
    let b := d.natAbs
    let e0 : Int := (bits a : Int) - (bits b : Int)
    let t : Int := if geScaled a b e0 then e0 else e0 - 1
    let E : Int := max (t - 52) (-1074)
    let N : Nat := if 0 ≤ E then a else a * 2^(-E).toNat
    let D : Nat := if 0 ≤ E then b * 2^E.toNat else b
    let q := N / D
    let r := N % D
    let m : Nat := if 2*r < D then q else if D < 2*r then q+1 else (if q % 2 = 0 then q else q+1)
    ⟨s * m, E⟩

/-- Double negation (exact in IEEE-754). -/
def dneg (x : Dbl) : Dbl := ⟨-x.m, x.e⟩

/-- Double addition: the exact sum (a dyadic rational) rounded to nearest,
ties to even. -/
def dadd (x y : Dbl) : Dbl :=
  let emin := min x.e y.e
  let nsum : Int := x.m * 2^(x.e - emin).toNat + y.m * 2^(y.e - emin).toNat
  let r := roundQ nsum 1
  ⟨r.m, r.e + emin⟩

/-- Python `int(float)`: exact truncation toward zero. -/
def dtruncZ (x : Dbl) : Int :=
  if 0 ≤ x.e then x.m * 2^x.e.toNat
  else if 0 ≤ x.m then (x.m.natAbs / 2^(-x.e).toNat : Nat)
  else -((x.m.natAbs / 2^(-x.e).toNat : Nat) : Int)

/-- A Python number as it occurs in a schema property and in the widget
kwargs: an `int` (arbitrary-precision, exact) or a `float` (binary64). -/
inductive PyNum where
  | pint (z : Int) : PyNum
  | pfloat (x : Dbl) : PyNum
deriving DecidableEq

/-- Python `+`: exact on two ints; with a float involved, the int operand is
converted to a double (rounding) and the doubles are added (rounding). -/
def pyAdd : PyNum → PyNum → PyNum
  | PyNum.pint a, PyNum.pint b => PyNum.pint (a + b)
  | PyNum.pint a, PyNum.pfloat y => PyNum.pfloat (dadd (roundQ a 1) y)
  | PyNum.pfloat x, PyNum.pint b => PyNum.pfloat (dadd x (roundQ b 1))
  | PyNum.pfloat x, PyNum.pfloat y => PyNum.pfloat (dadd x y)

/-- Python `-`, by the same rules (IEEE subtraction is addition of the exact
negation). -/
def pySub : PyNum → PyNum → PyNum
  | PyNum.pint a, PyNum.pint b => PyNum.pint (a - b)
  | PyNum.pint a, PyNum.pfloat y => PyNum.pfloat (dadd (roundQ a 1) (dneg y))
  | PyNum.pfloat x, PyNum.pint b => PyNum.pfloat (dadd x (dneg (roundQ b 1)))
  | PyNum.pfloat x, PyNum.pfloat y => PyNum.pfloat (dadd x (dneg y))

/-- Python `int(·)`: identity on ints, exact truncation toward zero on
floats. -/
def pyIntOf : PyNum → PyNum
  | PyNum.pint z => PyNum.pint z
  | PyNum.pfloat x => PyNum.pint (dtruncZ x)

/-- Python `float(·)`: identity on floats; an int is rounded to the nearest
double. -/
def pyFloatOf : PyNum → PyNum
  | PyNum.pint z => PyNum.pfloat (roundQ z 1)
  | PyNum.pfloat x => PyNum.pfloat x

/-- The `number_transform` local of `_render_single_number_input`: Python
`float` for `"number"`-typed properties, Python `int` otherwise. -/
def number_transform (isNumber : Bool) (v : PyNum) : PyNum :=
  if isNumber then pyFloatOf v else pyIntOf v

/-- The schema fields `_render_single_number_input` reads from a numeric
property (JSON numbers as pydantic hands them over: Python ints or
doubles). -/
structure NumProp where
  type : Option String
  multipleOf : Option PyNum
  minimum : Option PyNum
  exclusiveMinimum : Option PyNum
  maximum : Option PyNum
  exclusiveMaximum : Option PyNum
  default : Option PyNum

/-- `property.get("type") == "number"`. -/
def NumProp.isNumber (p : NumProp) : Bool := p.type = Option.some "number"

/-- The widget configuration assembled in `streamlit_kwargs`, plus which
widget the function hands it to. -/
structure NumberInputConfig where
  step : PyNum
  min_value : Option PyNum
  max_value : Option PyNum
  value : PyNum
  isSlider : Bool

/-- `InputUI._render_single_number_input`: builds `step`, `min_value`,
`max_value` and `value` from the schema property with Python numeric
semantics (the literal `0.01` is the double nearest `1/100`) and chooses
`st.slider` exactly when both bounds are present (`isSlider`). -/
def render_single_number_input (p : NumProp) : NumberInputConfig :=
  let isNum := p.isNumber
  let step : PyNum :=
    match p.multipleOf with
    | Option.some m => number_transform isNum m
    | Option.none => if isNum then PyNum.pfloat (roundQ 1 100) else PyNum.pint 1
  let min_value : Option PyNum :=
    match p.exclusiveMinimum with
    | Option.some em => Option.some (number_transform isNum (pyAdd em step))
    | Option.none =>
        match p.minimum with
        | Option.some m => Option.some (number_transform isNum m)
        | Option.none => Option.none
  let max_value : Option PyNum :=
    match p.exclusiveMaximum with
    | Option.some eM => Option.some (number_transform isNum (pySub eM step))
    | Option.none =>
        match p.maximum with
        | Option.some m => Option.some (number_transform isNum m)
        | Option.none => Option.none
  let value : PyNum :=
    match p.default with
    | Option.some dv => number_transform isNum dv
    | Option.none =>
        match min_value with
        | Option.some mv => mv
        | Option.none => if isNum then number_transform isNum step else PyNum.pint 0
  { step := step, min_value := min_value, max_value := max_value, value := value,
    isSlider := min_value.isSome && max_value.isSome }

/-- C3 (amended): the numeric widget configuration respects the schema's
constraints under Python numeric semantics, with every schema value passed
through the function's `number_transform` (`float` for `"number"`-typed
properties, `int` truncation otherwise): `step` is
`number_transform(multipleOf)` when present, else `1` for integers and the
double `0.01` for floats; `min_value` is `number_transform(minimum)` when
only `minimum` is present and `number_transform(exclusiveMinimum + step)`
when `exclusiveMinimum` is present — strictly greater than
`exclusiveMinimum` for positive `step` in the exact regime of integer-typed
properties with integer schema values (for floats IEEE rounding can
collapse the sum back onto the bound); `max_value` symmetrically from
`maximum` / `exclusiveMaximum`; the initial `value` falls back to
`min_value` when no schema default exists and a lower bound is present; and
a slider is chosen exactly when both bounds are set. -/
theorem render_single_number_input_spec (p : NumProp) :
    ((∀ m, p.multipleOf = Option.some m →
        (render_single_number_input p).step = number_transform p.isNumber m)
      ∧ (p.multipleOf = Option.none → p.isNumber = false →
        (render_single_number_input p).step = PyNum.pint 1)
      ∧ (p.multipleOf = Option.none → p.isNumber = true →
        (render_single_number_input p).step = PyNum.pfloat (roundQ 1 100)))
    ∧ ((∀ em, p.exclusiveMinimum = Option.some em →
        (render_single_number_input p).min_value
            = Option.some (number_transform p.isNumber
                (pyAdd em (render_single_number_input p).step)))
      ∧ (p.isNumber = false → ∀ za zs, p.exclusiveMinimum = Option.some (PyNum.pint za) →
        (render_single_number_input p).step = PyNum.pint zs → 0 < zs →
        (render_single_number_input p).min_value = Option.some (PyNum.pint (za + zs))
          ∧ za < za + zs)
      ∧ (p.exclusiveMinimum = Option.none → ∀ m, p.minimum = Option.some m →
        (render_single_number_input p).min_value
            = Option.some (number_transform p.isNumber m))
      ∧ (p.exclusiveMinimum = Option.none → p.minimum = Option.none →
        (render_single_number_input p).min_value = Option.none))
    ∧ ((∀ eM, p.exclusiveMaximum = Option.some eM →
        (render_single_number_input p).max_value
            = Option.some (number_transform p.isNumber
                (pySub eM (render_single_number_input p).step)))
      ∧ (p.exclusiveMaximum = Option.none → ∀ m, p.maximum = Option.some m →
        (render_single_number_input p).max_value
            = Option.some (number_transform p.isNumber m))
      ∧ (p.exclusiveMaximum = Option.none → p.maximum = Option.none →
        (render_single_number_input p).max_value = Option.none))
    ∧ (p.default = Option.none → ∀ mv,
        (render_single_number_input p).min_value = Option.some mv →
        (render_single_number_input p).value = mv)
    ∧ (render_single_number_input p).isSlider
        = ((render_single_number_input p).min_value.isSome
            && (render_single_number_input p).max_value.isSome) := by
  refine ⟨⟨?_, ?_, ?_⟩, ⟨?_, ?_, ?_, ?_⟩, ⟨?_, ?_, ?_⟩, ?_, ?_⟩
  · intro m hm; simp [render_single_number_input, hm]
  · intro hm hb; simp [render_single_number_input, hm, hb]
  · intro hm hb; simp [render_single_number_input, hm, hb]
  · intro em hem; simp [render_single_number_input, hem]
  · intro hb za zs hem hstep hzs
    simp only [render_single_number_input, hem] at hstep ⊢
    rw [hstep]
    simp [number_transform, pyAdd, pyIntOf, hb]
    omega
  · intro hem m hm; simp [render_single_number_input, hem, hm]
  · intro hem hm; simp [render_single_number_input, hem, hm]
  · intro eM heM; simp [render_single_number_input, heM]
  · intro heM m hm; simp [render_single_number_input, heM, hm]
  · intro heM hm; simp [render_single_number_input, heM, hm]
  · intro hdf mv hmv
    simp only [render_single_number_input, hdf] at hmv ⊢
    rw [hmv]
  · rfl

/-- C3 counterexample to the claim as stated, at two concrete inputs.
First, an integer-typed property with `multipleOf = 0.5` (the double
`2^52 * 2^-53`): the code sets `step = int(0.5) = 0`, not `multipleOf`,
whose value is `1/2 ≠ 0`.  Second, a float-typed property with
`exclusiveMinimum = 1e20` (the double `6103515625000000 * 2^14`): with the
positive default step `0.01`, IEEE addition rounds `1e20 + 0.01` back to
`1e20`, so `min_value` equals the exclusive bound instead of exceeding
it. -/
theorem render_single_number_input_step_counterexample :
    ((render_single_number_input
        ⟨Option.some "integer", Option.some (PyNum.pfloat (roundQ 1 2)), Option.none,
          Option.none, Option.none, Option.none, Option.none⟩).step = PyNum.pint 0
      ∧ Dbl.toQ (roundQ 1 2) = 1/2 ∧ ((1:ℚ)/2 ≠ 0))
    ∧ ((render_single_number_input
        ⟨Option.some "number", Option.none, Option.none,
          Option.some (PyNum.pfloat (roundQ 100000000000000000000 1)),
          Option.none, Option.none, Option.none⟩).min_value
          = Option.some (PyNum.pfloat (roundQ 100000000000000000000 1))
      ∧ 0 < (roundQ 1 100).m) := by
  refine ⟨⟨by decide, ?_, by norm_num⟩, by decide, by decide⟩
  have h : roundQ 1 2 = ⟨4503599627370496, -53⟩ := by decide
  rw [h]
  show ((4503599627370496 : ℤ) : ℚ) / 2^(53:ℕ) = 1/2
  norm_num

theorem render_single_number_input_spec_witness :
    (render_single_number_input
        ⟨Option.some "number", Option.none, Option.some (PyNum.pfloat (roundQ 1 1)),
          Option.none, Option.some (PyNum.pfloat (roundQ 5 1)), Option.none,
          Option.none⟩).step = PyNum.pfloat (roundQ 1 100)
      ∧ (render_single_number_input
          ⟨Option.some "number", Option.none, Option.some (PyNum.pfloat (roundQ 1 1)),
            Option.none, Option.some (PyNum.pfloat (roundQ 5 1)), Option.none,
            Option.none⟩).min_value = Option.some (PyNum.pfloat (roundQ 1 1))
      ∧ (render_single_number_input
          ⟨Option.some "number", Option.none, Option.some (PyNum.pfloat (roundQ 1 1)),
            Option.none, Option.some (PyNum.pfloat (roundQ 5 1)), Option.none,
            Option.none⟩).value = PyNum.pfloat (roundQ 1 1)
      ∧ (render_single_number_input
          ⟨Option.some "number", Option.none, Option.some (PyNum.pfloat (roundQ 1 1)),
            Option.none, Option.some (PyNum.pfloat (roundQ 5 1)), Option.none,
            Option.none⟩).isSlider = true := by
  have h := render_single_number_input_spec
    ⟨Option.some "number", Option.none, Option.some (PyNum.pfloat (roundQ 1 1)),
      Option.none, Option.some (PyNum.pfloat (roundQ 5 1)), Option.none, Option.none⟩
  refine ⟨h.1.2.2 rfl rfl, ?_, ?_, ?_⟩
  · have := h.2.1.2.2.1 rfl (PyNum.pfloat (roundQ 1 1)) rfl
    simpa [number_transform, NumProp.isNumber, pyFloatOf] using this
  · refine h.2.2.2.1 rfl (PyNum.pfloat (roundQ 1 1)) ?_
    have := h.2.1.2.2.1 rfl (PyNum.pfloat (roundQ 1 1)) rfl
    simpa [number_transform, NumProp.isNumber, pyFloatOf] using this
  · rw [h.2.2.2.2]; rfl

/-- The boolean results of the thirteen `schema_utils` shape predicates on a
schema property (the predicates themselves live in `opyrator.ui.schema_utils`
and are treated as a black box; `_render_property` only branches on their
results). -/
structure ShapeChecks where
  isSingleEnum : Bool
  isMultiEnum : Bool
  isSingleFile : Bool
  isMultiFile : Bool
  isSingleDatetime : Bool
  isSingleBoolean : Bool
  isSingleDict : Bool
  isSingleNumber : Bool
  isSingleString : Bool
  isSingleObject : Bool
  isObjectList : Bool
  isPropertyList : Bool
  isSingleReference : Bool

/-- The renderer invoked for a property shape. -/
inductive Renderer where
  | singleEnum : Renderer
  | multiEnum : Renderer
  | singleFile : Renderer
  | multiFile : Renderer
  | datetime : Renderer
  | boolean : Renderer
  | dict : Renderer
  | number : Renderer
  | string : Renderer
  | singleObject : Renderer
  | objectList : Renderer
  | propertyList : Renderer
  | singleReference : Renderer
deriving DecidableEq

/-- `InputUI._render_property`: the if-chain dispatching a schema property to
its renderer.  `Option.none` models the fall-through case, in which the code
emits a warning and raises `Exception("Unsupported property")`. -/
def render_property (c : ShapeChecks) : Option Renderer :=
  if c.isSingleEnum then Option.some Renderer.singleEnum
  else if c.isMultiEnum then Option.some Renderer.multiEnum
  else if c.isSingleFile then Option.some Renderer.singleFile
  else if c.isMultiFile then Option.some Renderer.multiFile
  else if c.isSingleDatetime then Option.some Renderer.datetime
  else if c.isSingleBoolean then Option.some Renderer.boolean
  else if c.isSingleDict then Option.some Renderer.dict
  else if c.isSingleNumber then Option.some Renderer.number
  else if c.isSingleString then Option.some Renderer.string
  else if c.isSingleObject then Option.some Renderer.singleObject
  else if c.isObjectList then Option.some Renderer.objectList
  else if c.isPropertyList then Option.some Renderer.propertyList
  else if c.isSingleReference then Option.some Renderer.singleReference
  else Option.none

/-- The priority order the claim states, written independently of the
if-chain: predicates paired with their renderers, tested front to back. -/
def specPriorityOrder : List ((ShapeChecks → Bool) × Renderer) :=
  [(ShapeChecks.isSingleEnum, Renderer.singleEnum),
   (ShapeChecks.isMultiEnum, Renderer.multiEnum),
   (ShapeChecks.isSingleFile, Renderer.singleFile),
   (ShapeChecks.isMultiFile, Renderer.multiFile),
   (ShapeChecks.isSingleDatetime, Renderer.datetime),
   (ShapeChecks.isSingleBoolean, Renderer.boolean),
   (ShapeChecks.isSingleDict, Renderer.dict),
   (ShapeChecks.isSingleNumber, Renderer.number),
   (ShapeChecks.isSingleString, Renderer.string),
   (ShapeChecks.isSingleObject, Renderer.singleObject),
   (ShapeChecks.isObjectList, Renderer.objectList),
   (ShapeChecks.isPropertyList, Renderer.propertyList),
   (ShapeChecks.isSingleReference, Renderer.singleReference)]

/-- C4: `_render_property` is a total dispatch with the claimed fixed
priority order — for every vector of shape-predicate results it invokes
exactly the renderer of the first predicate that holds
(`List.find?` over the claimed order), and falls through to the
warning-plus-exception case (`Option.none`) exactly when no predicate
holds. -/
theorem render_property_dispatch (c : ShapeChecks) :
    render_property c
      = (specPriorityOrder.find? (fun pr => pr.1 c)).map (fun pr => pr.2) := by
  obtain ⟨e1, e2, f1, f2, dt, b, di, n, s, o, ol, pl, r⟩ := c
  simp only [render_property, specPriorityOrder, List.find?]
  cases e1 <;> cases e2 <;> cases f1 <;> cases f2 <;> cases dt <;> cases b <;>
    cases di <;> cases n <;> cases s <;> cases o <;> cases ol <;> cases pl <;>
    cases r <;> rfl

/-- Where a widget call is issued: the main area (`st`) or `st.sidebar`. -/
inductive Placement where
  | main : Placement
  | sidebar : Placement
deriving DecidableEq

/-- One entry of the trace of rendering calls a run of the script performs.
`renderProp` abstracts the whole widget subtree `_render_property` emits for
one schema property (identified by its key and the label used);
`opInvoke` marks the invocation of the wrapped operation; the remaining
constructors mirror the individual `st.*` calls of the script. -/
inductive Event where
  | titleShown (s : String) : Event
  | cssInjected : Event
  | descriptionShown (s : String) : Event
  | inputCustomRender : Event
  | renderProp (p : Placement) (key : String) (label : String) : Event
  | separatorShown : Event
  | buttonClear : Event
  | rerunTriggered : Event
  | buttonExecute : Event
  | spinnerShown : Event
  | opInvoke (v : PyVal) : Event
  | errorShown (e : String) : Event
  | outputSingleRender (v : PyVal) : Event
  | outputListRender (xs : List PyVal) : Event
  | buttonShowJson : Event
  | jsonShown (v : PyVal) : Event

/-- The widget host (streamlit) as an oracle: what each widget call returns
during one run of the script.  `renderProp key` is the value collected by the
widget subtree of one schema property (`Except.error ()` models the subtree
raising an exception); the booleans are the button results. -/
structure Host where
  renderProp : String → Except Unit PyVal
  customInput : PyVal
  clearClicked : Bool
  executeClicked : Bool
  showJsonClicked : Bool

/-- The session state fields `render_streamlit_ui` reads and writes.
Modelled from the spec: `streamlit_utils.SessionState` itself is not under
`src/`; its fields default to falsy values in a fresh session and `clear()`
resets them. -/
structure SessionState where
  input_data : PyVal
  output_data : PyVal
  latest_operation_input : PyVal

/-- A fresh (or cleared) session. -/
def initialSessionState : SessionState :=
  ⟨PyVal.dict [], PyVal.none, PyVal.none⟩

/-- The opyrator under rendering.  Modelled from the spec: the `Opyrator`
class is not under `src/`; per the spec it carries a name, a description, an
input model (its schema's properties, required list, and optional custom
renderer) and, as black boxes, pydantic's `parse_obj_as` for the input type
(`parse`, which either returns the parsed object or raises a
`ValidationError`) and the wrapped operation itself (`call`). -/
structure OpModel where
  name : String
  description : String
  inputHasCustomRenderer : Bool
  inputProperties : List (String × Option String)
  inputRequired : List String
  parse : PyVal → Except String PyVal
  call : PyVal → PyVal

/-- First letter upper-cased, rest lower-cased (one word of a title). -/
def capitalizeWord (s : String) : String :=
  match s.toList with
  | [] => ""
  | c :: rest => String.mk (c.toUpper :: rest.map Char.toLower)

/-- Modelled from the spec: `name_to_title` from `opyrator.core` is not under
`src/`; per the claim it produces the title-cased form of a snake_case name. -/
def name_to_title (name : String) : String :=
  String.intercalate " " ((splitOnChar '_' name.toList []).map capitalizeWord)

/-- The label `InputUI.render_ui` passes on for a property: its schema title
when that is truthy, its key's title-cased name otherwise. -/
def effectiveTitle (key : String) (title : Option String) : String :=
  match title with
  | Option.some t => if t = "" then name_to_title key else t
  | Option.none => name_to_title key

/-- Python truthiness of a value, as used by `if session_state.output_data:`
and `if opyrator.description:`. -/
def pyTruthy : PyVal → Bool
  | PyVal.none => false
  | PyVal.bool b => b
  | PyVal.int n => if n = 0 then false else true
  | PyVal.num q => if q = 0 then false else true
  | PyVal.str s => if s = "" then false else true
  | PyVal.list xs => match xs with | [] => false | _ => true
  | PyVal.dict es => match es with | [] => false | _ => true
  | PyVal.model _ _ => true

/-- The property loop of `InputUI.render_ui`: each property is rendered in
the main area when required (sidebar otherwise) with its effective title, and
the collected value is stored under the property key; a failing render or
store is swallowed by the `try/except` and the loop continues. -/
def render_ui_loop (host : Host) (required : List String) :
    List (String × Option String) → PyVal → PyVal × List Event
  | [], d => (d, [])
  | (key, title) :: rest, d =>
      let placement := if required.contains key then Placement.main else Placement.sidebar
      let d1 := match host.renderProp key with
        | Except.ok v => (store_value d (splitKey key) v).getD d
        | Except.error _ => d
      let r := render_ui_loop host required rest d1
      (r.1, Event.renderProp placement key (effectiveTitle key title) :: r.2)

/-- `InputUI.render_ui`: delegate to the input class's own
`render_input_ui` when it has one, otherwise run the property loop. -/
def input_render_ui (op : OpModel) (host : Host) (d : PyVal) : PyVal × List Event :=
  if op.inputHasCustomRenderer then (host.customInput, [Event.inputCustomRender])
  else render_ui_loop host op.inputRequired op.inputProperties d

/-- `OutputUI.render_ui`: a pydantic model instance gets the single-model
rendering, a list the list rendering, anything else nothing. -/
def output_render_ui (v : PyVal) : List Event :=
  match v with
  | PyVal.model n fs => [Event.outputSingleRender (PyVal.model n fs)]
  | PyVal.list xs => [Event.outputListRender xs]
  | _ => []

/-- Modelled from the spec: the invoked operation returns a structured
response — a pydantic model instance, or a list of such values. -/
def isStructuredResponse : PyVal → Bool
  | PyVal.model _ _ => true
  | PyVal.list _ => true
  | _ => false

/-- Substring test (`"opyrator" in title.lower()`). -/
def containsSub (s pat : String) : Bool :=
  s.toList.tails.any (fun t => pat.toList.isPrefixOf t)

/-- Python `str.lower()` (character-wise). -/
def lowerString (s : String) : String :=
  String.mk (s.toList.map Char.toLower)

/-- The page header: title (suffixed unless the name already mentions
opyrator), custom CSS, and the description when truthy. -/
def headerEvents (op : OpModel) : List Event :=
  let title := if containsSub (lowerString op.name) "opyrator" then op.name
    else op.name ++ " - Opyrator"
  [Event.titleShown title, Event.cssInjected]
    ++ (if op.description = "" then [] else [Event.descriptionShown op.description])

/-- The Execute branch: parse the collected input data; on success invoke
the operation, store its result as the output data and remember the parsed
input; on a `ValidationError` display it and leave the state unchanged. -/
def executePhase (op : OpModel) (s : SessionState) : SessionState × List Event :=
  match op.parse s.input_data with
  | Except.ok obj =>
      ({ s with output_data := op.call obj, latest_operation_input := obj },
        [Event.spinnerShown, Event.opInvoke obj])
  | Except.error e => (s, [Event.spinnerShown, Event.errorShown e])

/-- The trailing output section: rendered only when the session's output
data is truthy. -/
def outputPhase (host : Host) (s : SessionState) : List Event :=
  if pyTruthy s.output_data then
    output_render_ui s.output_data ++ [Event.separatorShown, Event.buttonShowJson]
      ++ (if host.showJsonClicked then [Event.jsonShown s.output_data] else [])
  else []

/-- `render_streamlit_ui`: one run of the generated streamlit script.
Renders the header and the input form, then the Clear button (a click clears
the session and triggers an immediate rerun, cutting the run short), the
Execute button, the execute branch, and the output section.  Returns the
session state after the run and the trace of rendering calls. -/
def render_streamlit_ui (op : OpModel) (host : Host) (s : SessionState) :
    SessionState × List Event :=
  let inp := input_render_ui op host s.input_data
  let pre := headerEvents op ++ inp.2 ++ [Event.separatorShown]
  if host.clearClicked then
    (initialSessionState, pre ++ [Event.buttonClear, Event.rerunTriggered])
  else
    let s1 : SessionState := { s with input_data := inp.1 }
    let ex := if host.executeClicked then executePhase op s1 else (s1, [])
    (ex.1, pre ++ [Event.buttonClear, Event.buttonExecute] ++ ex.2
      ++ outputPhase host ex.1)

/-- C5: `OutputUI.render_ui` renders every structured output value — as a
single-model rendering when it is a pydantic model instance, and as a list
rendering when it is a list. -/
theorem output_render_ui_renders_structured (v : PyVal)
    (hs : isStructuredResponse v = true) :
    output_render_ui v ≠ []
      ∧ (∀ n fs, v = PyVal.model n fs → output_render_ui v = [Event.outputSingleRender v])
      ∧ (∀ xs, v = PyVal.list xs → output_render_ui v = [Event.outputListRender xs]) := by
  cases v <;> simp [isStructuredResponse] at hs <;> simp [output_render_ui]

theorem output_render_ui_renders_structured_witness :
    isStructuredResponse (PyVal.model "Output" [("text", PyVal.str "hi")]) = true
      ∧ output_render_ui (PyVal.model "Output" [("text", PyVal.str "hi")])
          = [Event.outputSingleRender (PyVal.model "Output" [("text", PyVal.str "hi")])] := by
  refine ⟨rfl, ?_⟩
  exact (output_render_ui_renders_structured
    (PyVal.model "Output" [("text", PyVal.str "hi")]) rfl).2.1 "Output" [("text", PyVal.str "hi")] rfl

/-- Auxiliary: the trace of the property loop — one `renderProp` call per
schema property, in order, placed by membership in the required list and
labelled by the effective title, regardless of render failures. -/
theorem render_ui_loop_trace (host : Host) (required : List String) :
    ∀ (props : List (String × Option String)) (d : PyVal),
      (render_ui_loop host required props d).2
        = props.map (fun kt =>
            Event.renderProp
              (if required.contains kt.1 then Placement.main else Placement.sidebar)
              kt.1 (effectiveTitle kt.1 kt.2)) := by
  intro props
  induction props with
  | nil => intro d; rfl
  | cons kt rest ih =>
      intro d
      obtain ⟨key, title⟩ := kt
      simp [render_ui_loop, ih]

theorem lookupEntry_insertEntry_other (es : List (String × PyVal)) (k key : String)
    (v : PyVal) (h : k ≠ key) :
    lookupEntry (insertEntry es k v) key = lookupEntry es key := by
  induction es with
  | nil => simp [insertEntry, lookupEntry, h]
  | cons hd tl ih =>
      obtain ⟨k0, w⟩ := hd
      by_cases hk : k0 = k
      · subst hk
        simp [insertEntry, lookupEntry, h]
      · simp [insertEntry, hk, lookupEntry, ih]

/-- Auxiliary: effect of the property loop on the session input data, for
top-level (dot-free) distinct property keys over a dictionary: the final
data is a dictionary in which every successfully rendered property key is
bound to the host's value for it, a property key whose render failed is
unchanged, and keys outside the property list are unchanged. -/
theorem render_ui_loop_store (host : Host) (required : List String) :
    ∀ (props : List (String × Option String)) (es : List (String × PyVal)),
      (∀ kt ∈ props, splitKey kt.1 = [kt.1]) →
      (props.map Prod.fst).Nodup →
      ∃ es2, (render_ui_loop host required props (PyVal.dict es)).1 = PyVal.dict es2
        ∧ (∀ key, key ∉ props.map Prod.fst → lookupEntry es2 key = lookupEntry es key)
        ∧ (∀ kt ∈ props, ∀ v, host.renderProp kt.1 = Except.ok v →
            lookupEntry es2 kt.1 = Option.some v)
        ∧ (∀ kt ∈ props, host.renderProp kt.1 = Except.error () →
            lookupEntry es2 kt.1 = lookupEntry es kt.1) := by
  intro props
  induction props with
  | nil =>
      intro es _ _
      exact ⟨es, rfl, fun key _ => rfl, fun kt h => absurd h (List.not_mem_nil kt),
        fun kt h => absurd h (List.not_mem_nil kt)⟩
  | cons kt0 rest ih =>
      intro es hdots hnodup
      obtain ⟨key0, title0⟩ := kt0
      have hdot0 : splitKey key0 = [key0] := hdots (key0, title0) (List.mem_cons_self _ _)
      have hdotsr : ∀ kt ∈ rest, splitKey kt.1 = [kt.1] :=
        fun kt h => hdots kt (List.mem_cons_of_mem _ h)
      have hnodupr : (rest.map Prod.fst).Nodup := by
        simpa using hnodup.of_cons
      have hnotin : key0 ∉ rest.map Prod.fst := by
        have := hnodup
        simp only [List.map_cons, List.nodup_cons] at this
        exact this.1
      match hrp : host.renderProp key0 with
      | Except.ok v =>
          have hd1 : (match host.renderProp key0 with
              | Except.ok v => (store_value (PyVal.dict es) (splitKey key0) v).getD (PyVal.dict es)
              | Except.error _ => PyVal.dict es)
              = PyVal.dict (insertEntry es key0 v) := by
            rw [hrp, hdot0]
            rfl
          obtain ⟨es2, hfin, hframe, hok, herr⟩ := ih (insertEntry es key0 v) hdotsr hnodupr
          refine ⟨es2, ?_, ?_, ?_, ?_⟩
          · simp only [render_ui_loop]
            rw [hd1]
            exact hfin
          · intro key hkey
            have hk0 : key ≠ key0 := by
              intro h; exact hkey (by simp [h])
            have hkr : key ∉ rest.map Prod.fst := by
              intro h; exact hkey (by simp [h])
            rw [hframe key hkr, lookupEntry_insertEntry_other es key0 key v (fun h => hk0 h.symm)]
          · intro kt hkt w hw
            rcases List.mem_cons.mp hkt with heq | hmem
            · have hk : kt.1 = key0 := by rw [heq]
              rw [hk] at hw ⊢
              rw [hrp] at hw
              have hv : v = w := by injection hw
              rw [hframe key0 hnotin, lookupEntry_insertEntry_self, hv]
            · exact hok kt hmem w hw
          · intro kt hkt hw
            rcases List.mem_cons.mp hkt with heq | hmem
            · have hk : kt.1 = key0 := by rw [heq]
              rw [hk] at hw
              rw [hrp] at hw
              exact absurd hw (by simp)
            · have hne : kt.1 ≠ key0 := by
                intro h
                exact hnotin (h ▸ List.mem_map_of_mem Prod.fst hmem)
              rw [herr kt hmem hw,
                lookupEntry_insertEntry_other es key0 kt.1 v (fun h => hne h.symm)]
      | Except.error u =>
          have hd1 : (match host.renderProp key0 with
              | Except.ok v => (store_value (PyVal.dict es) (splitKey key0) v).getD (PyVal.dict es)
              | Except.error _ => PyVal.dict es)
              = PyVal.dict es := by
            rw [hrp]
          obtain ⟨es2, hfin, hframe, hok, herr⟩ := ih es hdotsr hnodupr
          refine ⟨es2, ?_, ?_, ?_, ?_⟩
          · simp only [render_ui_loop]
            rw [hd1]
            exact hfin
          · intro key hkey
            have hkr : key ∉ rest.map Prod.fst := by
              intro h; exact hkey (by simp [h])
            exact hframe key hkr
          · intro kt hkt w hw
            rcases List.mem_cons.mp hkt with heq | hmem
            · have hk : kt.1 = key0 := by rw [heq]
              rw [hk] at hw
              rw [hrp] at hw
              exact absurd hw (by simp)
            · exact hok kt hmem w hw
          · intro kt hkt hw
            rcases List.mem_cons.mp hkt with heq | hmem
            · have hk : kt.1 = key0 := by rw [heq]
              rw [hk]
              exact hframe key0 hnotin
            · exact herr kt hmem hw

/-- C6: without a custom input renderer, `InputUI.render_ui` renders one
input widget per schema property, in the main area when the key is required
and in the sidebar otherwise, labelled by the schema title with the key's
title-cased name as fallback, and stores each collected widget value in the
session input data under that property's key. -/
theorem input_render_ui_renders_and_stores
    (op : OpModel) (host : Host) (es : List (String × PyVal))
    (hcustom : op.inputHasCustomRenderer = false)
    (hdots : ∀ kt ∈ op.inputProperties, splitKey kt.1 = [kt.1])
    (hnodup : (op.inputProperties.map Prod.fst).Nodup)
    (hsucc : ∀ kt ∈ op.inputProperties, ∃ v, host.renderProp kt.1 = Except.ok v) :
    (input_render_ui op host (PyVal.dict es)).2
      = op.inputProperties.map (fun kt =>
          Event.renderProp
            (if op.inputRequired.contains kt.1 then Placement.main else Placement.sidebar)
            kt.1 (effectiveTitle kt.1 kt.2))
    ∧ ∃ es2, (input_render_ui op host (PyVal.dict es)).1 = PyVal.dict es2
        ∧ ∀ kt ∈ op.inputProperties, ∃ v, host.renderProp kt.1 = Except.ok v
            ∧ lookupEntry es2 kt.1 = Option.some v := by
  obtain ⟨es2, hfin, _, hok, _⟩ :=
    render_ui_loop_store host op.inputRequired op.inputProperties es hdots hnodup
  refine ⟨?_, es2, ?_, ?_⟩
  · simp only [input_render_ui, hcustom, Bool.false_eq_true, if_false]
    exact render_ui_loop_trace host op.inputRequired op.inputProperties (PyVal.dict es)
  · simp only [input_render_ui, hcustom, Bool.false_eq_true, if_false]
    exact hfin
  · intro kt hkt
    obtain ⟨v, hv⟩ := hsucc kt hkt
    exact ⟨v, hv, hok kt hkt v hv⟩

def c6Op : OpModel :=
  { name := "n", description := "", inputHasCustomRenderer := false,
    inputProperties := [("alpha", Option.none), ("beta", Option.some "Beta")],
    inputRequired := ["alpha"],
    parse := fun d => Except.ok d, call := fun v => v }

def c6Host : Host :=
  { renderProp := fun k => Except.ok (PyVal.str k), customInput := PyVal.none,
    clearClicked := false, executeClicked := false, showJsonClicked := false }

theorem input_render_ui_renders_and_stores_witness :
    (input_render_ui c6Op c6Host (PyVal.dict [])).2
        = [Event.renderProp Placement.main "alpha" "Alpha",
           Event.renderProp Placement.sidebar "beta" "Beta"]
      ∧ ∃ es2, (input_render_ui c6Op c6Host (PyVal.dict [])).1 = PyVal.dict es2
          ∧ lookupEntry es2 "alpha" = Option.some (PyVal.str "alpha")
          ∧ lookupEntry es2 "beta" = Option.some (PyVal.str "beta") := by
  have h := input_render_ui_renders_and_stores c6Op c6Host [] rfl
    (by decide) (by decide) (fun kt _ => ⟨PyVal.str kt.1, rfl⟩)
  constructor
  · rw [h.1]; rfl
  · obtain ⟨es2, hfin, hlook⟩ := h.2
    obtain ⟨va, hva, hla⟩ := hlook ("alpha", Option.none) (by simp [c6Op])
    obtain ⟨vb, hvb, hlb⟩ := hlook ("beta", Option.some "Beta") (by simp [c6Op])
    have hva2 : va = PyVal.str "alpha" := by
      have h2 := hva
      simp only [c6Host] at h2
      injection h2 with h3; exact h3.symm
    have hvb2 : vb = PyVal.str "beta" := by
      have h2 := hvb
      simp only [c6Host] at h2
      injection h2 with h3; exact h3.symm
    exact ⟨es2, hfin, hva2 ▸ hla, hvb2 ▸ hlb⟩

/-- C9: in the non-custom-renderer path of `InputUI.render_ui`, a property
whose rendering raises is skipped — its widget call still happens, every
other property is still rendered and its collected value stored, keys
outside the failing one keep their stored values, and the failing property's
own entry in the session input data is left exactly as it was. -/
theorem input_render_ui_failure_isolated
    (op : OpModel) (host : Host) (es : List (String × PyVal))
    (p1 p2 : List (String × Option String)) (kf : String) (tf : Option String)
    (hprops : op.inputProperties = p1 ++ (kf, tf) :: p2)
    (hcustom : op.inputHasCustomRenderer = false)
    (hdots : ∀ kt ∈ op.inputProperties, splitKey kt.1 = [kt.1])
    (hnodup : (op.inputProperties.map Prod.fst).Nodup)
    (hfail : host.renderProp kf = Except.error ())
    (hsucc : ∀ kt ∈ p1 ++ p2, ∃ v, host.renderProp kt.1 = Except.ok v) :
    (input_render_ui op host (PyVal.dict es)).2
      = op.inputProperties.map (fun kt =>
          Event.renderProp
            (if op.inputRequired.contains kt.1 then Placement.main else Placement.sidebar)
            kt.1 (effectiveTitle kt.1 kt.2))
    ∧ ∃ es2, (input_render_ui op host (PyVal.dict es)).1 = PyVal.dict es2
        ∧ (∀ kt ∈ p1 ++ p2, ∃ v, host.renderProp kt.1 = Except.ok v
            ∧ lookupEntry es2 kt.1 = Option.some v)
        ∧ lookupEntry es2 kf = lookupEntry es kf := by
  obtain ⟨es2, hfin, _, hok, herr⟩ :=
    render_ui_loop_store host op.inputRequired op.inputProperties es hdots hnodup
  have hkf : (kf, tf) ∈ op.inputProperties := by
    rw [hprops]; exact List.mem_append_right _ (List.mem_cons_self _ _)
  refine ⟨?_, es2, ?_, ?_, ?_⟩
  · simp only [input_render_ui, hcustom, Bool.false_eq_true, if_false]
    exact render_ui_loop_trace host op.inputRequired op.inputProperties (PyVal.dict es)
  · simp only [input_render_ui, hcustom, Bool.false_eq_true, if_false]
    exact hfin
  · intro kt hkt
    have hmem : kt ∈ op.inputProperties := by
      rw [hprops]
      rcases List.mem_append.mp hkt with h1 | h2
      · exact List.mem_append_left _ h1
      · exact List.mem_append_right _ (List.mem_cons_of_mem _ h2)
    obtain ⟨v, hv⟩ := hsucc kt hkt
    exact ⟨v, hv, hok kt hmem v hv⟩
  · exact herr (kf, tf) hkf hfail

def c9Op : OpModel :=
  { name := "n", description := "", inputHasCustomRenderer := false,
    inputProperties := [("a", Option.none), ("bad", Option.none), ("b", Option.none)],
    inputRequired := [],
    parse := fun d => Except.ok d, call := fun v => v }

def c9Host : Host :=
  { renderProp := fun k => if k = "bad" then Except.error () else Except.ok (PyVal.str k),
    customInput := PyVal.none, clearClicked := false, executeClicked := false,
    showJsonClicked := false }

theorem input_render_ui_failure_isolated_witness :
    (input_render_ui c9Op c9Host (PyVal.dict [])).2
        = [Event.renderProp Placement.sidebar "a" "A",
           Event.renderProp Placement.sidebar "bad" "Bad",
           Event.renderProp Placement.sidebar "b" "B"]
      ∧ ∃ es2, (input_render_ui c9Op c9Host (PyVal.dict [])).1 = PyVal.dict es2
          ∧ lookupEntry es2 "a" = Option.some (PyVal.str "a")
          ∧ lookupEntry es2 "b" = Option.some (PyVal.str "b")
          ∧ lookupEntry es2 "bad" = Option.none := by
  have h := input_render_ui_failure_isolated c9Op c9Host []
    [("a", Option.none)] [("b", Option.none)] "bad" Option.none rfl rfl
    (by decide) (by decide) rfl
    (by
      intro kt hkt
      simp only [List.mem_append, List.mem_singleton] at hkt
      rcases hkt with h1 | h1 <;> subst h1 <;> exact ⟨_, rfl⟩)
  constructor
  · rw [h.1]; rfl
  · obtain ⟨es2, hfin, hlook, hbad⟩ := h.2
    obtain ⟨va, hva, hla⟩ := hlook ("a", Option.none) (by simp)
    obtain ⟨vb, hvb, hlb⟩ := hlook ("b", Option.none) (by simp)
    have hva2 : va = PyVal.str "a" := by
      have h2 := hva
      simp only [c9Host] at h2
      rw [if_neg (by decide)] at h2
      injection h2 with h3; exact h3.symm
    have hvb2 : vb = PyVal.str "b" := by
      have h2 := hvb
      simp only [c9Host] at h2
      rw [if_neg (by decide)] at h2
      injection h2 with h3; exact h3.symm
    refine ⟨es2, hfin, hva2 ▸ hla, hvb2 ▸ hlb, ?_⟩
    rw [hbad]; rfl

theorem opInvoke_not_mem_headerEvents (op : OpModel) (v : PyVal) :
    Event.opInvoke v ∉ headerEvents op := by
  by_cases hd : op.description = "" <;> simp [headerEvents, hd]

theorem opInvoke_not_mem_input_render (op : OpModel) (host : Host) (d : PyVal) (v : PyVal) :
    Event.opInvoke v ∉ (input_render_ui op host d).2 := by
  by_cases hc : op.inputHasCustomRenderer
  · simp [input_render_ui, hc]
  · simp only [input_render_ui, hc, Bool.false_eq_true, if_false]
    rw [render_ui_loop_trace]
    simp

theorem opInvoke_not_mem_output_render (w : PyVal) (v : PyVal) :
    Event.opInvoke v ∉ output_render_ui w := by
  cases w <;> simp [output_render_ui]

theorem opInvoke_not_mem_outputPhase (host : Host) (s : SessionState) (v : PyVal) :
    Event.opInvoke v ∉ outputPhase host s := by
  by_cases ht : pyTruthy s.output_data
  · by_cases hj : host.showJsonClicked <;>
      simp [outputPhase, ht, hj, opInvoke_not_mem_output_render]
  · simp [outputPhase, ht]

/-- C10: when Execute is selected and parsing the collected input data
raises a `ValidationError`, the error is displayed, the operation is not
invoked, and the session's output data and latest operation input keep their
previous values — the run changes only the input data collected by the
rendering phase. -/
theorem render_streamlit_ui_validation_error
    (op : OpModel) (host : Host) (s : SessionState)
    (hclear : host.clearClicked = false)
    (hexec : host.executeClicked = true)
    (e : String)
    (hparse : op.parse (input_render_ui op host s.input_data).1 = Except.error e) :
    (render_streamlit_ui op host s).1.output_data = s.output_data
    ∧ (render_streamlit_ui op host s).1.latest_operation_input = s.latest_operation_input
    ∧ (render_streamlit_ui op host s).1.input_data = (input_render_ui op host s.input_data).1
    ∧ Event.errorShown e ∈ (render_streamlit_ui op host s).2
    ∧ ∀ v, Event.opInvoke v ∉ (render_streamlit_ui op host s).2 := by
  have hrun : render_streamlit_ui op host s
      = ({ s with input_data := (input_render_ui op host s.input_data).1 },
         (headerEvents op ++ (input_render_ui op host s.input_data).2
            ++ [Event.separatorShown])
           ++ [Event.buttonClear, Event.buttonExecute]
           ++ [Event.spinnerShown, Event.errorShown e]
           ++ outputPhase host
               { s with input_data := (input_render_ui op host s.input_data).1 }) := by
    simp only [render_streamlit_ui, hclear, Bool.false_eq_true, if_false, hexec, if_true,
      executePhase, hparse]
  rw [hrun]
  refine ⟨rfl, rfl, rfl, ?_, ?_⟩
  · simp
  · intro v
    simp [opInvoke_not_mem_headerEvents op v,
      opInvoke_not_mem_input_render op host s.input_data v,
      opInvoke_not_mem_outputPhase host
        ({ s with input_data := (input_render_ui op host s.input_data).1 }) v]

def c10Op : OpModel :=
  { name := "n", description := "", inputHasCustomRenderer := false,
    inputProperties := [], inputRequired := [],
    parse := fun _ => Except.error "invalid", call := fun v => v }

def c10Host : Host :=
  { renderProp := fun _ => Except.error (), customInput := PyVal.none,
    clearClicked := false, executeClicked := true, showJsonClicked := false }

theorem render_streamlit_ui_validation_error_witness :
    (render_streamlit_ui c10Op c10Host initialSessionState).1.output_data = PyVal.none
    ∧ (render_streamlit_ui c10Op c10Host initialSessionState).1.latest_operation_input
        = PyVal.none
    ∧ Event.errorShown "invalid" ∈ (render_streamlit_ui c10Op c10Host initialSessionState).2
    ∧ Event.opInvoke (PyVal.dict []) ∉ (render_streamlit_ui c10Op c10Host initialSessionState).2 := by
  have h := render_streamlit_ui_validation_error c10Op c10Host initialSessionState
    rfl rfl "invalid" rfl
  exact ⟨h.1, h.2.1, h.2.2.2.1, h.2.2.2.2 (PyVal.dict [])⟩

/-- C1 (amended): when Execute is selected (and Clear is not), the collected
session input data is parsed into the input model, the operation is invoked
with the parsed object as its `input` argument, the result is stored as the
session's output data (and the parsed input as the latest operation input),
and the structured response is then rendered provided it is truthy — a falsy
result such as an empty list is stored but not rendered. -/
theorem render_streamlit_ui_execute
    (op : OpModel) (host : Host) (s : SessionState)
    (hclear : host.clearClicked = false)
    (hexec : host.executeClicked = true)
    (obj : PyVal)
    (hparse : op.parse (input_render_ui op host s.input_data).1 = Except.ok obj)
    (htruthy : pyTruthy (op.call obj) = true) :
    (render_streamlit_ui op host s).1.output_data = op.call obj
    ∧ (render_streamlit_ui op host s).1.latest_operation_input = obj
    ∧ Event.opInvoke obj ∈ (render_streamlit_ui op host s).2
    ∧ ∀ ev ∈ output_render_ui (op.call obj), ev ∈ (render_streamlit_ui op host s).2 := by
  have hrun : render_streamlit_ui op host s
      = ((⟨(input_render_ui op host s.input_data).1, op.call obj, obj⟩ : SessionState),
         (headerEvents op ++ (input_render_ui op host s.input_data).2
            ++ [Event.separatorShown])
           ++ [Event.buttonClear, Event.buttonExecute]
           ++ [Event.spinnerShown, Event.opInvoke obj]
           ++ outputPhase host
               (⟨(input_render_ui op host s.input_data).1, op.call obj, obj⟩ : SessionState)) := by
    obtain ⟨si, so, sl⟩ := s
    simp only [render_streamlit_ui, hclear, Bool.false_eq_true, if_false, hexec, if_true,
      executePhase] at hparse ⊢
    rw [hparse]
  rw [hrun]
  refine ⟨rfl, rfl, by simp, ?_⟩
  intro ev hev
  have hout : ev ∈ outputPhase host
      (⟨(input_render_ui op host s.input_data).1, op.call obj, obj⟩ : SessionState) := by
    simp only [outputPhase, htruthy, if_true]
    exact List.mem_append_left _ (List.mem_append_left _ hev)
  simp [hout]

def c1Op : OpModel :=
  { name := "op", description := "", inputHasCustomRenderer := false,
    inputProperties := [], inputRequired := [],
    parse := fun d => Except.ok d, call := fun _ => PyVal.list [] }

def c1Host : Host :=
  { renderProp := fun _ => Except.error (), customInput := PyVal.none,
    clearClicked := false, executeClicked := true, showJsonClicked := false }

/-- C1 counterexample to the claim as stated: an operation returning the
empty list.  The result is stored as the session's output data, but since an
empty list is falsy, `if session_state.output_data:` skips the output
rendering — no structured-response rendering call occurs in the trace. -/
theorem render_streamlit_ui_execute_counterexample :
    (render_streamlit_ui c1Op c1Host initialSessionState).1.output_data = PyVal.list []
    ∧ Event.outputListRender [] ∉ (render_streamlit_ui c1Op c1Host initialSessionState).2 := by
  have ht : (render_streamlit_ui c1Op c1Host initialSessionState).2
      = [Event.titleShown "op - Opyrator", Event.cssInjected, Event.separatorShown,
         Event.buttonClear, Event.buttonExecute, Event.spinnerShown,
         Event.opInvoke (PyVal.dict [])] := rfl
  exact ⟨rfl, by rw [ht]; simp⟩

def c1WOp : OpModel :=
  { name := "op", description := "", inputHasCustomRenderer := false,
    inputProperties := [], inputRequired := [],
    parse := fun d => Except.ok d, call := fun v => PyVal.model "Out" [("echo", v)] }

theorem render_streamlit_ui_execute_witness :
    (render_streamlit_ui c1WOp c1Host initialSessionState).1.output_data
        = PyVal.model "Out" [("echo", PyVal.dict [])]
    ∧ (render_streamlit_ui c1WOp c1Host initialSessionState).1.latest_operation_input
        = PyVal.dict []
    ∧ Event.opInvoke (PyVal.dict []) ∈ (render_streamlit_ui c1WOp c1Host initialSessionState).2
    ∧ Event.outputSingleRender (PyVal.model "Out" [("echo", PyVal.dict [])])
        ∈ (render_streamlit_ui c1WOp c1Host initialSessionState).2 := by
  have h := render_streamlit_ui_execute c1WOp c1Host initialSessionState rfl rfl
    (PyVal.dict []) rfl rfl
  exact ⟨h.1, h.2.1, h.2.2.1, h.2.2.2 _ (by simp [output_render_ui, c1WOp])⟩

/-- The widget calls whose returned value the script consumes. -/
inductive Query where
  | prop (key : String) : Query
  | customInput : Query
  | clearBtn : Query
  | executeBtn : Query
  | showJsonBtn : Query

/-- The query (if any) a trace entry answers. -/
def queryOfEvent : Event → Option Query
  | Event.renderProp _ key _ => Option.some (Query.prop key)
  | Event.inputCustomRender => Option.some Query.customInput
  | Event.buttonClear => Option.some Query.clearBtn
  | Event.buttonExecute => Option.some Query.executeBtn
  | Event.buttonShowJson => Option.some Query.showJsonBtn
  | _ => Option.none

/-- The two hosts return equal values for this widget call. -/
def hostAnswerEq (h1 h2 : Host) : Query → Prop
  | Query.prop key => h1.renderProp key = h2.renderProp key
  | Query.customInput => h1.customInput = h2.customInput
  | Query.clearBtn => h1.clearClicked = h2.clearClicked
  | Query.executeBtn => h1.executeClicked = h2.executeClicked
  | Query.showJsonBtn => h1.showJsonClicked = h2.showJsonClicked

/-- The two hosts return equal values for every widget call occurring in the
given trace. -/
def agreeOn (h1 h2 : Host) (evs : List Event) : Prop :=
  ∀ e ∈ evs, ∀ q, queryOfEvent e = Option.some q → hostAnswerEq h1 h2 q

theorem agreeOn_mono (h1 h2 : Host) (l1 l2 : List Event)
    (hsub : ∀ e ∈ l1, e ∈ l2) (h : agreeOn h1 h2 l2) : agreeOn h1 h2 l1 :=
  fun e he q hq => h e (hsub e he) q hq

/-- Auxiliary: the property loop is determined by the host's answers for the
listed property keys. -/
theorem render_ui_loop_host_agree (h1 h2 : Host) (required : List String) :
    ∀ (props : List (String × Option String)) (d : PyVal),
      (∀ kt ∈ props, h1.renderProp kt.1 = h2.renderProp kt.1) →
      render_ui_loop h1 required props d = render_ui_loop h2 required props d := by
  intro props
  induction props with
  | nil => intro d _; rfl
  | cons kt rest ih =>
      intro d h
      obtain ⟨key, title⟩ := kt
      have hkey : h1.renderProp key = h2.renderProp key :=
        h (key, title) (List.mem_cons_self _ _)
      have hrest : ∀ kt ∈ rest, h1.renderProp kt.1 = h2.renderProp kt.1 :=
        fun kt hm => h kt (List.mem_cons_of_mem _ hm)
      simp only [render_ui_loop, hkey]
      rw [ih _ hrest]

/-- Auxiliary: `InputUI.render_ui` is determined by the host's answers for
the custom renderer (when present) and the property widgets (otherwise). -/
theorem input_render_ui_host_agree (op : OpModel) (h1 h2 : Host) (d : PyVal)
    (hci : op.inputHasCustomRenderer = true → h1.customInput = h2.customInput)
    (hrp : op.inputHasCustomRenderer = false →
      ∀ kt ∈ op.inputProperties, h1.renderProp kt.1 = h2.renderProp kt.1) :
    input_render_ui op h1 d = input_render_ui op h2 d := by
  by_cases hc : op.inputHasCustomRenderer = true
  · simp [input_render_ui, hc, hci hc]
  · have hc0 : op.inputHasCustomRenderer = false := by simpa using hc
    simp only [input_render_ui, hc0, Bool.false_eq_true, if_false]
    exact render_ui_loop_host_agree h1 h2 op.inputRequired op.inputProperties d (hrp hc0)

/-- Auxiliary: the output section depends on the host only through the
Show-JSON button, and only when the output data is truthy. -/
theorem outputPhase_host_agree (h1 h2 : Host) (st : SessionState)
    (hsj : pyTruthy st.output_data = true → h1.showJsonClicked = h2.showJsonClicked) :
    outputPhase h1 st = outputPhase h2 st := by
  by_cases ht : pyTruthy st.output_data = true
  · simp [outputPhase, ht, hsj ht]
  · simp [outputPhase, ht]

/-- Auxiliary: the non-clear branch of the run is determined by the input
phase, the two button answers, and (when output is shown) the Show-JSON
button. -/
theorem render_tail_eq (op : OpModel) (h1 h2 : Host) (s : SessionState)
    (hinp : input_render_ui op h1 s.input_data = input_render_ui op h2 s.input_data)
    (hc1 : h1.clearClicked = false) (hc2 : h2.clearClicked = false)
    (hexec : h1.executeClicked = h2.executeClicked)
    (hsj : pyTruthy (render_streamlit_ui op h1 s).1.output_data = true →
      h1.showJsonClicked = h2.showJsonClicked) :
    render_streamlit_ui op h1 s = render_streamlit_ui op h2 s := by
  simp only [render_streamlit_ui, hc1, hc2, Bool.false_eq_true, if_false] at hsj ⊢
  rw [← hinp, ← hexec]
  rw [outputPhase_host_agree h1 h2 _ hsj]

/-- C7: rendering is deterministic request/response processing — two runs of
`render_streamlit_ui` started from equal session states, whose widget hosts
return equal values for the widget calls occurring in the run, perform the
same sequence of rendering calls and end with equal session states. -/
theorem render_streamlit_ui_deterministic
    (op : OpModel) (h1 h2 : Host) (s : SessionState)
    (hag : agreeOn h1 h2 (render_streamlit_ui op h1 s).2) :
    render_streamlit_ui op h1 s = render_streamlit_ui op h2 s := by
  have hsubinp : ∀ e ∈ (input_render_ui op h1 s.input_data).2,
      e ∈ (render_streamlit_ui op h1 s).2 := by
    intro e he
    by_cases hc : h1.clearClicked = true <;> simp [render_streamlit_ui, hc, he]
  have hinp : input_render_ui op h1 s.input_data = input_render_ui op h2 s.input_data := by
    apply input_render_ui_host_agree
    · intro hcus
      have hmem : Event.inputCustomRender ∈ (render_streamlit_ui op h1 s).2 := by
        apply hsubinp
        simp [input_render_ui, hcus]
      exact hag _ hmem Query.customInput rfl
    · intro hcus kt hkt
      have hmem : Event.renderProp
          (if op.inputRequired.contains kt.1 then Placement.main else Placement.sidebar)
          kt.1 (effectiveTitle kt.1 kt.2) ∈ (render_streamlit_ui op h1 s).2 := by
        apply hsubinp
        simp only [input_render_ui, hcus, Bool.false_eq_true, if_false]
        rw [render_ui_loop_trace]
        exact List.mem_map_of_mem _ hkt
      exact hag _ hmem (Query.prop kt.1) rfl
  have hclmem : Event.buttonClear ∈ (render_streamlit_ui op h1 s).2 := by
    by_cases hc : h1.clearClicked = true <;> simp [render_streamlit_ui, hc]
  have hcl : h1.clearClicked = h2.clearClicked := hag _ hclmem Query.clearBtn rfl
  by_cases hc : h1.clearClicked = true
  · have hc2 : h2.clearClicked = true := hcl ▸ hc
    simp only [render_streamlit_ui, hc, hc2, if_true]
    rw [hinp]
  · have hc1 : h1.clearClicked = false := by simpa using hc
    have hc2 : h2.clearClicked = false := hcl ▸ hc1
    have hexmem : Event.buttonExecute ∈ (render_streamlit_ui op h1 s).2 := by
      simp [render_streamlit_ui, hc1]
    have hexec : h1.executeClicked = h2.executeClicked := hag _ hexmem Query.executeBtn rfl
    have hsjmem : pyTruthy (render_streamlit_ui op h1 s).1.output_data = true →
        Event.buttonShowJson ∈ (render_streamlit_ui op h1 s).2 := by
      intro ht
      simp only [render_streamlit_ui, hc1, Bool.false_eq_true, if_false] at ht ⊢
      simp [outputPhase, ht]
    have hsj : pyTruthy (render_streamlit_ui op h1 s).1.output_data = true →
        h1.showJsonClicked = h2.showJsonClicked :=
      fun ht => hag _ (hsjmem ht) Query.showJsonBtn rfl
    exact render_tail_eq op h1 h2 s hinp hc1 hc2 hexec hsj

def c7Op : OpModel :=
  { name := "demo", description := "", inputHasCustomRenderer := false,
    inputProperties := [("a", Option.none)], inputRequired := [],
    parse := fun d => Except.ok d, call := fun v => v }

def c7HostA : Host :=
  { renderProp := fun k => Except.ok (PyVal.str k), customInput := PyVal.none,
    clearClicked := false, executeClicked := false, showJsonClicked := false }

def c7HostB : Host :=
  { renderProp := fun k => Except.ok (PyVal.str k), customInput := PyVal.none,
    clearClicked := false, executeClicked := false, showJsonClicked := true }

theorem render_streamlit_ui_deterministic_witness :
    render_streamlit_ui c7Op c7HostA initialSessionState
      = render_streamlit_ui c7Op c7HostB initialSessionState := by
  apply render_streamlit_ui_deterministic
  intro e he q hq
  have htr : (render_streamlit_ui c7Op c7HostA initialSessionState).2
      = [Event.titleShown "demo - Opyrator", Event.cssInjected,
         Event.renderProp Placement.sidebar "a" "A", Event.separatorShown,
         Event.buttonClear, Event.buttonExecute] := rfl
  rw [htr] at he
  simp only [List.mem_cons, List.not_mem_nil, or_false] at he
  rcases he with rfl | rfl | rfl | rfl | rfl | rfl
  · exact Option.noConfusion hq
  · exact Option.noConfusion hq
  · have hq2 := Option.some.inj hq
    rw [← hq2]
    rfl
  · exact Option.noConfusion hq
  · have hq2 := Option.some.inj hq
    rw [← hq2]
    rfl
  · have hq2 := Option.some.inj hq
    rw [← hq2]
    rfl
